import Mathlib

/-!
Verification development for the LifeFit backend real-time layer and goal
lifecycle (`backend/src/middleware/validation.js` socket section,
`backend/src/models/Goal.js`, `backend/src/routes/goals.js`).

The socket section keeps a module-level `activeConnections = new Map()`
keyed by userId; each value is `{socketId, socket, connectedAt, user}` with
`lastActivity` and `status` fields added later by the `presence:update`
handler.  We embed the JS `Map` as an association list with JS `Map.set`
semantics (replace in place if the key exists, else append) and model the
socket handlers as a step function over a server state that also tracks the
set of open sockets.
-/

abbrev Time := Nat
abbrev UserId := String
abbrev SocketId := String

/-- One open Socket.IO socket: its id and the authenticated user
(`socket.userId` set by `authenticateSocket`). -/
structure Socket where
  sid : SocketId
  userId : UserId
deriving DecidableEq, Repr

/-- One value of `activeConnections`: `{socketId, socket, connectedAt, user}`,
plus the `lastActivity` / `status` fields that `presence:update` adds later
(absent — `none` — until then).  The `socket` and `user` fields are
represented by `socketId` / the owning key. -/
structure ConnEntry where
  socketId : SocketId
  connectedAt : Time
  lastActivity : Option Time
  status : Option String
deriving DecidableEq, Repr

abbrev Registry := List (UserId × ConnEntry)

/-- JS `Map.get`: the value stored under `k` (keys are unique, so the
first match is the match). -/
def mapGet : Registry → UserId → Option ConnEntry
  | [], _ => none
  | p :: ps, k => if p.1 = k then some p.2 else mapGet ps k

/-- JS `Map.set`: overwrite in place when the key is present, else append. -/
def mapSet (m : Registry) (k : UserId) (v : ConnEntry) : Registry :=
  if m.any (fun p => decide (p.1 = k)) then
    m.map (fun p => if p.1 = k then (k, v) else p)
  else
    m ++ [(k, v)]

/-- JS `Map.delete`. -/
def mapDelete (m : Registry) (k : UserId) : Registry :=
  m.filter (fun p => !decide (p.1 = k))

/-- Server state: the `activeConnections` map plus the set of sockets that
are currently open (a socket can stay open while its registry entry was
overwritten or deleted). -/
structure SrvState where
  registry : Registry
  liveSockets : List Socket
deriving DecidableEq, Repr

def initState : SrvState := ⟨[], []⟩

/-- The recognized inbound frames dispatched by `socketHandler`
(`health-data:update`, `goal:progress`, `workout:*`, `notification:read`,
`typing:*`, `sync:*`, `presence:update`, `custom:event`). -/
inductive InboundKind
  | healthDataUpdate
  | goalProgress
  | workoutStart
  | workoutUpdate
  | workoutComplete
  | notificationRead
  | typingStart
  | typingStop
  | syncRequest
  | syncResponse
  | presenceUpdate (status : Option String)
  | customEvent
deriving DecidableEq, Repr

def InboundKind.isPresence : InboundKind → Bool
  | .presenceUpdate _ => true
  | _ => false

/-- JS `data.status || 'active'` (an absent or empty status falls back). -/
def jsStatusOrActive (o : Option String) : String :=
  match o with
  | none => "active"
  | some s => if s = "" then "active" else s

/-- `io.on('connection')` body, registry part:
`activeConnections.set(userId, {socketId, socket, connectedAt: new Date(), user})`.
The socket also becomes live. -/
def handleConnect (st : SrvState) (s : Socket) (now : Time) : SrvState :=
  { registry := mapSet st.registry s.userId ⟨s.sid, now, none, none⟩
    liveSockets := st.liveSockets ++ [s] }

/-- The inbound-frame handlers.  Only `presence:update` touches the
registry: `const connection = activeConnections.get(userId); if (connection)
{ connection.lastActivity = new Date(); connection.status = data.status ||
'active'; }`.  Every other handler only re-broadcasts via
`socket.to(...)` and leaves `activeConnections` unchanged. -/
def handleInbound (st : SrvState) (s : Socket) (k : InboundKind) (now : Time) : SrvState :=
  match k with
  | .presenceUpdate status =>
      { st with registry := st.registry.map (fun p =>
          if p.1 = s.userId then
            (p.1, { p.2 with lastActivity := some now, status := some (jsStatusOrActive status) })
          else p) }
  | _ => st

/-- `socket.on('disconnect')`: `activeConnections.delete(userId)` —
unconditionally, with no check that the stored entry's socketId is the
disconnecting socket's id.  The socket ceases to be live. -/
def handleDisconnect (st : SrvState) (s : Socket) : SrvState :=
  { registry := mapDelete st.registry s.userId
    liveSockets := st.liveSockets.filter (fun t => !decide (t.sid = s.sid)) }

/-- `30 * 60 * 1000` — the idle threshold of the periodic cleanup. -/
def inactiveThresholdMs : Int := 30 * 60 * 1000

/-- `5 * 60 * 1000` — the `setInterval` period of the cleanup sweep. -/
def sweepPeriodMs : Nat := 5 * 60 * 1000

/-- `connection.lastActivity || connection.connectedAt`. -/
def effectiveLast (e : ConnEntry) : Time := e.lastActivity.getD e.connectedAt

/-- One pass of the `setInterval` cleanup: every entry with
`now - lastActivity > inactiveThreshold` is `disconnect(true)`ed and
deleted from `activeConnections`; the rest stay. -/
def handleSweep (st : SrvState) (now : Time) : SrvState :=
  let reapedIds := (st.registry.filter
      (fun p => decide ((now : Int) - (effectiveLast p.2 : Int) > inactiveThresholdMs))).map (·.2.socketId)
  { registry := st.registry.filter
      (fun p => !decide ((now : Int) - (effectiveLast p.2 : Int) > inactiveThresholdMs))
    liveSockets := st.liveSockets.filter (fun t => !reapedIds.contains t.sid) }

/-- The operations that mutate the connection state. -/
inductive Op
  | connect (s : Socket) (now : Time)
  | inbound (s : Socket) (k : InboundKind) (now : Time)
  | disconnect (s : Socket)
  | sweep (now : Time)

def applyOp (st : SrvState) : Op → SrvState
  | .connect s now => handleConnect st s now
  | .inbound s k now => handleInbound st s k now
  | .disconnect s => handleDisconnect st s
  | .sweep now => handleSweep st now

/-- State reached by running a sequence of operations from the empty map. -/
def run (ops : List Op) : SrvState := ops.foldl applyOp initState

/-- `sendToUser(userId, event, data)`: emits to the single stored socket if
`activeConnections.get(userId)` is an entry, returning `true`; else
`false`.  Number of connections it delivers to. -/
def sendToUserCount (st : SrvState) (uid : UserId) : Nat :=
  match mapGet st.registry uid with
  | some _ => 1
  | none => 0

/-- `sendToUser`'s boolean result. -/
def sendToUserOk (st : SrvState) (uid : UserId) : Bool :=
  (mapGet st.registry uid).isSome

/-- The socketId `sendToUser(userId, ...)` would emit to, if any. -/
def sendRecipient (st : SrvState) (uid : UserId) : Option SocketId :=
  (mapGet st.registry uid).map (·.socketId)

/-- `getUserConnection(userId) = activeConnections.get(userId)`. -/
def getUserConnection (st : SrvState) (uid : UserId) : Option ConnEntry :=
  mapGet st.registry uid

/-- The open sockets belonging to a user: the user's live connections. -/
def liveConnsOf (st : SrvState) (uid : UserId) : List Socket :=
  st.liveSockets.filter (fun s => decide (s.userId = uid))

/-- At most one registry entry per userId (JS `Map` key uniqueness). -/
def keysUnique (m : Registry) : Prop :=
  (m.map (·.1)).Nodup

/-!
Goal model (`backend/src/models/Goal.js`) and the goal routes
(`backend/src/routes/goals.js`).  Numbers are embedded as rationals (the
claims' inputs such as 32.5 are exact in ℚ and in IEEE doubles alike).
Fields not touched by status/progress logic (category, timeframe,
reminders, …) are omitted; `target` is kept as its `value` component, an
`Option` because the schema only requires it for `type = target`.
-/

inductive GoalStatus
  | active | paused | completed | cancelled | failed
deriving DecidableEq, Repr

inductive GoalType
  | target | habit | milestone
deriving DecidableEq, Repr

/-- One element of `progress.milestones`: `{value, achievedAt, note}`. -/
structure MilestoneRec where
  value : ℚ
  achievedAt : Time
  note : Option String
deriving DecidableEq, Repr

/-- `progress` subdocument. -/
structure GoalProgress where
  current : ℚ
  percentage : ℚ
  lastUpdated : Time
  milestones : List MilestoneRec
deriving DecidableEq, Repr

/-- A goal document (the fields the lifecycle logic reads or writes). -/
structure Goal where
  title : String
  type : GoalType
  targetValue : Option ℚ
  status : GoalStatus
  progress : GoalProgress
  completedAt : Option Time
  notes : Option String
deriving DecidableEq, Repr

/-- JS `Math.round` on exact reals: round half toward `+∞`, `⌊x + 1/2⌋`. -/
def jsRound (x : ℚ) : ℤ := ⌊x + 1/2⌋

/-- JS truthiness of `target.value` (present and nonzero). -/
def targetValueTruthy (o : Option ℚ) : Prop :=
  match o with
  | some t => t ≠ 0
  | none => False

instance (o : Option ℚ) : Decidable (targetValueTruthy o) := by
  unfold targetValueTruthy; cases o <;> infer_instance

/-- `goalSchema.pre('save')`: for a `target` goal with truthy `target.value`
(and a defined `progress.current`, always the case here) set
`progress.percentage = Math.min(Math.round(current / target.value * 100), 100)`
and, when the new percentage reaches 100 on an `active` goal, auto-complete
it; finally stamp `progress.lastUpdated`. -/
def pctFormula (current t : ℚ) : ℚ :=
  min ((jsRound (current / t * 100) : ℚ)) 100

def preSave (g : Goal) (now : Time) : Goal :=
  if g.type = .target ∧ targetValueTruthy g.targetValue then
    if pctFormula g.progress.current (g.targetValue.getD 1) ≥ 100 ∧ g.status = .active then
      { g with status := .completed, completedAt := some now,
               progress := { g.progress with
                 percentage := pctFormula g.progress.current (g.targetValue.getD 1),
                 lastUpdated := now } }
    else
      { g with progress := { g.progress with
          percentage := pctFormula g.progress.current (g.targetValue.getD 1),
          lastUpdated := now } }
  else
    { g with progress := { g.progress with lastUpdated := now } }

/-- JS truthiness of the optional `note` argument (`null`/absent and the
empty string are falsy). -/
def noteTruthy : Option String → Bool
  | none => false
  | some s => !decide (s = "")

/-- JS `newValue % 10 === 0` on exact reals: `newValue` is an integer
multiple of 10, i.e. `newValue / 10` has denominator 1. -/
def jsMod10IsZero (v : ℚ) : Bool := decide ((v / 10).den = 1)

/-- `goalSchema.methods.updateProgress(newValue, note)`: set
`progress.current` and `progress.lastUpdated`; push a milestone
`{value, achievedAt, note}` when `note || newValue % 10 === 0`; then
`save()` (which runs `preSave`). -/
def Goal.updateProgress (g : Goal) (v : ℚ) (note : Option String) (now : Time) : Goal :=
  preSave
    (if noteTruthy note || jsMod10IsZero v then
      { g with progress :=
          { g.progress with
              current := v
              lastUpdated := now
              milestones := g.progress.milestones ++ [⟨v, now, note⟩] } }
     else
      { g with progress := { g.progress with current := v, lastUpdated := now } })
    now

/-- `notes` concatenation used by `complete`/`pause`:
``this.notes ? `${this.notes}\n\nPrefix: ${note}` : `Prefix: ${note}` ``. -/
def appendNote (old : Option String) (prefixTag note : String) : Option String :=
  match old with
  | some n => if n == "" then some (prefixTag ++ ": " ++ note)
              else some (n ++ "\n\n" ++ prefixTag ++ ": " ++ note)
  | none => some (prefixTag ++ ": " ++ note)

/-- `goalSchema.methods.complete(note)`: set status `completed`,
`completedAt`, `progress.percentage = 100`, append the note when truthy,
then `save()`. -/
def Goal.complete (g : Goal) (note : Option String) (now : Time) : Goal :=
  preSave
    (if noteTruthy note then
      { g with status := .completed, completedAt := some now,
               progress := { g.progress with percentage := 100 },
               notes := appendNote g.notes "Completed" (note.getD "") }
     else
      { g with status := .completed, completedAt := some now,
               progress := { g.progress with percentage := 100 } })
    now

/-- `goalSchema.methods.pause(reason)`. -/
def Goal.pause (g : Goal) (reason : Option String) (now : Time) : Goal :=
  preSave
    (if noteTruthy reason then
      { g with status := .paused, notes := appendNote g.notes "Paused" (reason.getD "") }
     else
      { g with status := .paused })
    now

/-- `goalSchema.methods.resume()`: set status `active`, then `save()`. -/
def Goal.resume (g : Goal) (now : Time) : Goal :=
  preSave { g with status := .active } now

/-!
Route handlers (`backend/src/routes/goals.js`).  Each returns the goal as
left after the handler, the list of event names emitted through
`sendToUser` in program order, and the error message of a 400 response when
the guard rejects.
-/

/-- Outcome of one goal route invocation. -/
structure RouteOutcome where
  ok : Bool
  error : Option String
  goal : Goal
  events : List String
deriving DecidableEq, Repr

/-- `PUT /:id/progress`: run `goal.updateProgress(value, note)`, then
`sendToUser(..., 'goal:progress-updated', ...)`, then — when the goal ended
up `completed` — `sendToUser(..., 'goal:completed', ...)`. -/
def progressRoute (g : Goal) (v : ℚ) (note : Option String) (now : Time) : RouteOutcome :=
  let g' := g.updateProgress v note now
  { ok := true, error := none, goal := g'
    events := ["goal:progress-updated"] ++
      (if g'.status = .completed then ["goal:completed"] else []) }

/-- `PUT /:id/complete`: reject with 400 `'Goal is already completed'` when
`goal.status === 'completed'` (no mutation, no emission); otherwise run
`goal.complete(note)` and emit `goal:completed`. -/
def completeRoute (g : Goal) (note : Option String) (now : Time) : RouteOutcome :=
  if g.status = .completed then
    { ok := false, error := some "Goal is already completed", goal := g, events := [] }
  else
    { ok := true, error := none, goal := g.complete note now, events := ["goal:completed"] }

/-- `PUT /:id/pause`: reject with 400 `'Only active goals can be paused'`
unless `goal.status === 'active'`. -/
def pauseRoute (g : Goal) (reason : Option String) (now : Time) : RouteOutcome :=
  if g.status ≠ .active then
    { ok := false, error := some "Only active goals can be paused", goal := g, events := [] }
  else
    { ok := true, error := none, goal := g.pause reason now, events := ["goal:paused"] }

/-- `PUT /:id/resume`: reject with 400 `'Only paused goals can be resumed'`
unless `goal.status === 'paused'`. -/
def resumeRoute (g : Goal) (now : Time) : RouteOutcome :=
  if g.status ≠ .paused then
    { ok := false, error := some "Only paused goals can be resumed", goal := g, events := [] }
  else
    { ok := true, error := none, goal := g.resume now, events := ["goal:resumed"] }

/-- The body accepted by `goalSchemas.update` for the generic `PUT /:id`
route, restricted to the fields the Goal model's lifecycle state reads
(`title`, `status`, `notes`; the schema also admits description, priority,
reminders, tags, isPublic, which touch neither status nor progress).
Notably it admits a bare `status` drawn from all five enum values. -/
structure UpdateBody where
  title : Option String := none
  status : Option GoalStatus := none
  notes : Option String := none
deriving DecidableEq, Repr

/-- `PUT /:id`: `Goal.findByIdAndUpdate(id, req.body, {new, runValidators})`
— sets exactly the supplied fields, without running the `pre('save')` hook
and without any status-transition guard, then emits `goal:updated`. -/
def updateRoute (g : Goal) (b : UpdateBody) : RouteOutcome :=
  let g' := { g with
    title := b.title.getD g.title
    status := b.status.getD g.status
    notes := match b.notes with | some n => some n | none => g.notes }
  { ok := true, error := none, goal := g', events := ["goal:updated"] }

/-!
Concrete states and goals used by counterexamples and witnesses.
`sockA` and `sockB` are two open sockets of the same user `"u"`;
`twoConnState` is the server state after both connected (in that order),
`oneConnState` after only the first.
-/

def sockA : Socket := ⟨"s1", "u"⟩

def sockB : Socket := ⟨"s2", "u"⟩

def oneConnState : SrvState := run [.connect sockA 0]

def twoConnState : SrvState := run [.connect sockA 0, .connect sockB 1]

/-- A minimal goal document with the given status, target value and current
progress (empty milestone list, percentage 0, no notes). -/
def sampleGoal (st : GoalStatus) (tv : Option ℚ) (cur : ℚ) : Goal :=
  { title := "walk"
    type := .target
    targetValue := tv
    status := st
    progress := { current := cur, percentage := 0, lastUpdated := 0, milestones := [] }
    completedAt := none
    notes := none }

/-! Lemmas about the JS-`Map` embedding. -/

theorem mapGet_replace_self (m : Registry) (k : UserId) (v : ConnEntry)
    (h : m.any (fun p => decide (p.1 = k)) = true) :
    mapGet (m.map (fun p => if p.1 = k then (k, v) else p)) k = some v := by
  induction m with
  | nil => simp at h
  | cons a as ih =>
      by_cases ha : a.1 = k
      · simp [mapGet, ha]
      · simp only [List.any_cons, Bool.or_eq_true, decide_eq_true_eq] at h
        rcases h with h | h
        · exact absurd h ha
        · simp [mapGet, ha, ih h]

theorem mapGet_append_single (m : Registry) (k : UserId) (v : ConnEntry)
    (h : m.any (fun p => decide (p.1 = k)) = false) :
    mapGet (m ++ [(k, v)]) k = some v := by
  induction m with
  | nil => simp [mapGet]
  | cons a as ih =>
      simp only [List.any_cons, Bool.or_eq_false_iff, decide_eq_false_iff_not] at h
      simp [mapGet, h.1, ih (by simpa using h.2)]

theorem mapGet_mapSet_self (m : Registry) (k : UserId) (v : ConnEntry) :
    mapGet (mapSet m k v) k = some v := by
  unfold mapSet
  by_cases h : m.any (fun p => decide (p.1 = k)) = true
  · rw [if_pos h]; exact mapGet_replace_self m k v h
  · rw [if_neg h]
    exact mapGet_append_single m k v (Bool.eq_false_iff.mpr h)

theorem mapGet_replace_ne (m : Registry) (k k' : UserId) (v : ConnEntry)
    (hne : k' ≠ k) :
    mapGet (m.map (fun p => if p.1 = k then (k, v) else p)) k' = mapGet m k' := by
  have hkk' : ¬ (k = k') := fun e => hne e.symm
  induction m with
  | nil => rfl
  | cons a as ih =>
      by_cases ha : a.1 = k
      · simp [mapGet, ha, hkk', ih]
      · simp [mapGet, ha, ih]

theorem mapGet_append_single_ne (m : Registry) (k k' : UserId) (v : ConnEntry)
    (hne : k' ≠ k) :
    mapGet (m ++ [(k, v)]) k' = mapGet m k' := by
  have hkk' : ¬ (k = k') := fun e => hne e.symm
  induction m with
  | nil => simp [mapGet, hkk']
  | cons a as ih =>
      by_cases ha' : a.1 = k'
      · simp [mapGet, ha']
      · simp [mapGet, ha', ih]

theorem mapGet_mapSet_ne (m : Registry) (k k' : UserId) (v : ConnEntry)
    (hne : k' ≠ k) : mapGet (mapSet m k v) k' = mapGet m k' := by
  unfold mapSet
  by_cases h : m.any (fun p => decide (p.1 = k)) = true
  · rw [if_pos h]; exact mapGet_replace_ne m k k' v hne
  · rw [if_neg h]; exact mapGet_append_single_ne m k k' v hne

theorem mapGet_mapDelete_self (m : Registry) (k : UserId) :
    mapGet (mapDelete m k) k = none := by
  unfold mapDelete
  induction m with
  | nil => rfl
  | cons a as ih =>
      by_cases ha : a.1 = k
      · simpa [List.filter_cons, ha] using ih
      · simpa [mapGet, List.filter_cons, ha] using ih

theorem mapGet_mapDelete_ne (m : Registry) (k k' : UserId) (hne : k' ≠ k) :
    mapGet (mapDelete m k) k' = mapGet m k' := by
  have hkk' : ¬ (k = k') := fun e => hne e.symm
  unfold mapDelete
  induction m with
  | nil => rfl
  | cons a as ih =>
      by_cases ha : a.1 = k
      · simpa [mapGet, List.filter_cons, ha, hkk'] using ih
      · by_cases ha' : a.1 = k'
        · simp [mapGet, List.filter_cons, ha, ha', hne]
        · simpa [mapGet, List.filter_cons, ha, ha'] using ih

/-- Every entry of `mapSet m k v` whose key is `k` is the new entry. -/
theorem mem_mapSet_key (m : Registry) (k : UserId) (v : ConnEntry)
    (p : UserId × ConnEntry) (hp : p ∈ mapSet m k v) (hk : p.1 = k) :
    p = (k, v) := by
  unfold mapSet at hp
  by_cases h : m.any (fun p => decide (p.1 = k)) = true
  · rw [if_pos h] at hp
    rw [List.mem_map] at hp
    obtain ⟨q, _, hq⟩ := hp
    by_cases hqk : q.1 = k
    · rw [if_pos hqk] at hq; exact hq.symm
    · rw [if_neg hqk] at hq
      subst hq
      exact absurd hk hqk
  · rw [if_neg h] at hp
    rw [List.mem_append, List.mem_singleton] at hp
    rcases hp with hp | hp
    · exact absurd (List.any_eq_true.mpr ⟨p, hp, by simp [hk]⟩) h
    · exact hp

/-! Key uniqueness is preserved by every operation. -/

theorem keysUnique_mapSet (m : Registry) (k : UserId) (v : ConnEntry)
    (h : keysUnique m) : keysUnique (mapSet m k v) := by
  unfold keysUnique mapSet at *
  by_cases hc : m.any (fun p => decide (p.1 = k)) = true
  · rw [if_pos hc]
    have hkeys : (m.map (fun p => if p.1 = k then (k, v) else p)).map (·.1) = m.map (·.1) := by
      rw [List.map_map]
      exact List.map_congr_left (fun p _ => by by_cases hp : p.1 = k <;> simp [hp])
    rw [hkeys]; exact h
  · rw [if_neg hc, List.map_append]
    refine List.Nodup.append h (List.nodup_singleton k) ?_
    intro a ha hb
    rw [List.mem_map] at ha
    obtain ⟨p, hpm, hpk⟩ := ha
    rw [List.map_singleton, List.mem_singleton] at hb
    exact hc (List.any_eq_true.mpr ⟨p, hpm, by simp [hpk, hb]⟩)

theorem keysUnique_keyPreservingMap (m : Registry)
    (f : UserId × ConnEntry → UserId × ConnEntry) (hf : ∀ p, (f p).1 = p.1)
    (h : keysUnique m) : keysUnique (m.map f) := by
  unfold keysUnique at *
  rw [List.map_map, show ((·.1) ∘ f : UserId × ConnEntry → UserId) = (·.1) from funext hf]
  exact h

theorem keysUnique_filter (m : Registry) (p : UserId × ConnEntry → Bool)
    (h : keysUnique m) : keysUnique (m.filter p) := by
  unfold keysUnique at *
  exact h.sublist ((m.filter_sublist).map (·.1))

theorem keysUnique_applyOp (st : SrvState) (o : Op)
    (h : keysUnique st.registry) : keysUnique (applyOp st o).registry := by
  cases o with
  | connect s now => exact keysUnique_mapSet _ _ _ h
  | inbound s k now =>
      cases k <;> try exact h
      case presenceUpdate status =>
        exact keysUnique_keyPreservingMap _ _
          (fun p => by by_cases hp : p.1 = s.userId <;> simp [hp]) h
  | disconnect s => exact keysUnique_filter _ _ h
  | sweep now => exact keysUnique_filter _ _ h

/-- Every state reachable from server start has a registry with at most one
entry per userId. -/
theorem run_keysUnique (ops : List Op) : keysUnique (run ops).registry := by
  unfold run
  suffices h : ∀ st, keysUnique st.registry → keysUnique (ops.foldl applyOp st).registry by
    exact h initState (by simp [initState, keysUnique])
  induction ops with
  | nil => exact fun st h => h
  | cons o os ih => exact fun st h => ih _ (keysUnique_applyOp st o h)

/-! Arithmetic facts about `preSave`'s percentage computation. -/

theorem jsRound_mono {x y : ℚ} (h : x ≤ y) : jsRound x ≤ jsRound y :=
  Int.floor_le_floor (by linarith)

theorem jsRound_nonneg {x : ℚ} (h : 0 ≤ x) : 0 ≤ jsRound x :=
  Int.le_floor.mpr (by push_cast; linarith)

theorem jsRound_ge_100 {x : ℚ} (h : (100 : ℚ) ≤ x) : (100 : ℤ) ≤ jsRound x :=
  Int.le_floor.mpr (by push_cast; linarith)

/-- `preSave` never touches the milestone list. -/
theorem preSave_milestones (g : Goal) (now : Time) :
    (preSave g now).progress.milestones = g.progress.milestones := by
  unfold preSave
  split_ifs <;> rfl

/-- `preSave` never touches `progress.current`. -/
theorem preSave_current (g : Goal) (now : Time) :
    (preSave g now).progress.current = g.progress.current := by
  unfold preSave
  split_ifs <;> rfl

/-- On a `target` goal with nonzero target value, `preSave` stores
`Math.min(Math.round(current / target.value * 100), 100)`. -/
theorem preSave_percentage (g : Goal) (t : ℚ) (now : Time)
    (htype : g.type = .target) (hval : g.targetValue = some t) (ht : t ≠ 0) :
    (preSave g now).progress.percentage
      = pctFormula g.progress.current t := by
  unfold preSave
  rw [if_pos ⟨htype, by rw [hval]; exact ht⟩, hval]
  split_ifs <;> rfl

/-- `preSave` auto-completes an active `target` goal whose recomputed
percentage reaches 100. -/
theorem preSave_autocompletes (g : Goal) (t : ℚ) (now : Time)
    (htype : g.type = .target) (hval : g.targetValue = some t) (ht : t ≠ 0)
    (hstatus : g.status = .active)
    (hpct : pctFormula g.progress.current t ≥ 100) :
    (preSave g now).status = .completed := by
  unfold preSave
  rw [if_pos ⟨htype, by rw [hval]; exact ht⟩, hval]
  rw [if_pos ⟨by simpa using hpct, hstatus⟩]

/-! Lemmas about `Goal.updateProgress`. -/

/-- The milestone list after `updateProgress`: appended exactly under the
JS guard `note || newValue % 10 === 0`. -/
theorem updateProgress_milestones (g : Goal) (v : ℚ) (note : Option String) (now : Time) :
    (g.updateProgress v note now).progress.milestones
      = if noteTruthy note || jsMod10IsZero v
        then g.progress.milestones ++ [⟨v, now, note⟩]
        else g.progress.milestones := by
  unfold Goal.updateProgress
  by_cases h : (noteTruthy note || jsMod10IsZero v) = true
  · rw [preSave_milestones, if_pos h, if_pos h]
  · rw [preSave_milestones, if_neg h, if_neg h]

/-- The stored percentage after `updateProgress v` on a `target` goal. -/
theorem updateProgress_percentage (g : Goal) (t v : ℚ) (note : Option String) (now : Time)
    (htype : g.type = .target) (hval : g.targetValue = some t) (ht : t ≠ 0) :
    (g.updateProgress v note now).progress.percentage = pctFormula v t := by
  unfold Goal.updateProgress
  split_ifs with h <;> exact preSave_percentage _ t now htype hval ht

/-- `updateProgress v` with `v ≥ target.value` on an active `target` goal
auto-completes it. -/
theorem updateProgress_completes (g : Goal) (t v : ℚ) (note : Option String) (now : Time)
    (htype : g.type = .target) (hval : g.targetValue = some t) (ht : 0 < t)
    (hstatus : g.status = .active) (hv : t ≤ v) :
    (g.updateProgress v note now).status = .completed := by
  have ht0 : t ≠ 0 := ne_of_gt ht
  have h1 : (100 : ℚ) ≤ v / t * 100 := by
    have hdiv : (1 : ℚ) ≤ v / t := (one_le_div ht).mpr hv
    linarith
  have h2 : (100 : ℚ) ≤ (jsRound (v / t * 100) : ℚ) := by
    exact_mod_cast jsRound_ge_100 h1
  have hpct : pctFormula v t ≥ 100 := le_min h2 le_rfl
  unfold Goal.updateProgress
  split_ifs with h <;> exact preSave_autocompletes _ t now htype hval ht0 hstatus hpct

/-- The JS test `newValue % 10 === 0` holds exactly on integer multiples
of 10. -/
theorem jsMod10IsZero_iff (v : ℚ) :
    jsMod10IsZero v = true ↔ ∃ k : ℤ, v = 10 * k := by
  unfold jsMod10IsZero
  rw [decide_eq_true_eq]
  constructor
  · intro h
    refine ⟨(v / 10).num, ?_⟩
    have hnum : ((v / 10).num : ℚ) = v / 10 := (Rat.den_eq_one_iff _).mp h
    field_simp at hnum
    linarith
  · rintro ⟨k, rfl⟩
    have : (10 : ℚ) * k / 10 = (k : ℚ) := by field_simp
    rw [this, Rat.den_intCast]

/-! Claim theorems. -/

/-- C3: for every active goal of type `target` with `target.value > 0`,
`updateProgress(v)` with `v ≥ target.value` (via `PUT /:id/progress`)
changes the status from `active` to `completed`, and the route emits
exactly `goal:progress-updated` followed by `goal:completed`, in that
order. -/
theorem progress_route_completes_in_order (g : Goal) (t v : ℚ) (note : Option String)
    (now : Time) (hstatus : g.status = .active) (htype : g.type = .target)
    (hval : g.targetValue = some t) (ht : 0 < t) (hv : t ≤ v) :
    (progressRoute g v note now).goal.status = .completed
    ∧ (progressRoute g v note now).events = ["goal:progress-updated", "goal:completed"] := by
  have hc := updateProgress_completes g t v note now htype hval ht hstatus hv
  unfold progressRoute
  simp [hc]

/-- Witness for C3 at `target.value = 65`, `v = 65`. -/
theorem progress_route_completes_in_order_witness :
    (progressRoute (sampleGoal .active (some 65) 0) 65 none 0).goal.status = .completed
    ∧ (progressRoute (sampleGoal .active (some 65) 0) 65 none 0).events
        = ["goal:progress-updated", "goal:completed"] :=
  progress_route_completes_in_order (sampleGoal .active (some 65) 0) 65 65 none 0
    rfl rfl rfl (by norm_num) le_rfl

/-- C4: `PUT /:id/complete` on an already-completed goal answers 400
(`InvalidTransition` in the spec's taxonomy), returns the goal unchanged
(status and percentage included) and emits nothing; `PUT /:id/resume` on a
non-paused goal does likewise. -/
theorem invalid_transitions_rejected (g g2 : Goal) (note : Option String)
    (now now2 : Time) (h : g.status = .completed) (h2 : g2.status ≠ .paused) :
    completeRoute g note now
      = { ok := false, error := some "Goal is already completed", goal := g, events := [] }
    ∧ resumeRoute g2 now2
      = { ok := false, error := some "Only paused goals can be resumed", goal := g2, events := [] } := by
  constructor
  · unfold completeRoute; rw [if_pos h]
  · unfold resumeRoute; rw [if_pos h2]

/-- Witness for C4: a completed goal and an active (hence non-paused) goal. -/
theorem invalid_transitions_rejected_witness :
    completeRoute (sampleGoal .completed (some 65) 100) none 5
      = { ok := false, error := some "Goal is already completed",
          goal := sampleGoal .completed (some 65) 100, events := [] }
    ∧ resumeRoute (sampleGoal .active (some 65) 0) 5
      = { ok := false, error := some "Only paused goals can be resumed",
          goal := sampleGoal .active (some 65) 0, events := [] } :=
  invalid_transitions_rejected (sampleGoal .completed (some 65) 100)
    (sampleGoal .active (some 65) 0) none 5 5 rfl (by decide)

/-- C5 counterexample: the generic `PUT /:id` route moves a goal whose
status is `completed` back to `active`, so completed is not terminal and
status is mutable outside the state-machine transitions. -/
theorem completed_not_terminal_counterexample :
    (sampleGoal .completed (some 65) 100).status = .completed
    ∧ (updateRoute (sampleGoal .completed (some 65) 100)
        { status := some .active }).goal.status = .active :=
  ⟨rfl, rfl⟩

/-- C5 amended: the dedicated transition routes guard their preconditions,
but `PUT /:id` (validated by `goalSchemas.update`, which admits a bare
`status` field) applies any of the five statuses to any goal via
`findByIdAndUpdate`, bypassing the state machine — so no status, completed
included, is terminal under the generic update operation. -/
theorem update_route_sets_any_status (g : Goal) (st : GoalStatus) :
    (updateRoute g { status := some st }).goal.status = st := rfl

/-- C6: for a `target` goal with `target.value = t > 0` and `v ≥ 0`, the
stored percentage after `updateProgress(v)` equals
`clamp(round(v / t * 100), 0, 100)`; it is monotone non-decreasing in `v`;
and for `t = 65`: `v = 32.5 ↦ 50`, `v = 100 ↦ 100`. -/
theorem stored_percentage_clamped_monotone (g : Goal) (t : ℚ) (now : Time)
    (htype : g.type = .target) (hval : g.targetValue = some t) (ht : 0 < t) :
    (∀ v : ℚ, 0 ≤ v →
      (g.updateProgress v none now).progress.percentage
        = max 0 (min ((jsRound (v / t * 100) : ℚ)) 100))
    ∧ (∀ v1 v2 : ℚ, v1 ≤ v2 →
      (g.updateProgress v1 none now).progress.percentage
        ≤ (g.updateProgress v2 none now).progress.percentage)
    ∧ (t = 65 →
      (g.updateProgress (65/2) none now).progress.percentage = 50
      ∧ (g.updateProgress 100 none now).progress.percentage = 100) := by
  have ht0 : t ≠ 0 := ne_of_gt ht
  refine ⟨?_, ?_, ?_⟩
  · intro v hv
    rw [updateProgress_percentage g t v none now htype hval ht0]
    unfold pctFormula
    have hx : (0 : ℚ) ≤ v / t * 100 :=
      mul_nonneg (div_nonneg hv ht.le) (by norm_num)
    have h0 : (0 : ℚ) ≤ (jsRound (v / t * 100) : ℚ) := by
      exact_mod_cast jsRound_nonneg hx
    rw [max_eq_right (le_min h0 (by norm_num))]
  · intro v1 v2 h12
    rw [updateProgress_percentage g t v1 none now htype hval ht0,
        updateProgress_percentage g t v2 none now htype hval ht0]
    unfold pctFormula
    have hstep : v1 / t * 100 ≤ v2 / t * 100 := by
      have hd : v1 / t ≤ v2 / t := (div_le_div_iff_of_pos_right ht).mpr h12
      exact mul_le_mul_of_nonneg_right hd (by norm_num)
    exact min_le_min (by exact_mod_cast jsRound_mono hstep) le_rfl
  · rintro rfl
    constructor
    · rw [updateProgress_percentage g 65 (65/2) none now htype hval ht0]
      unfold pctFormula jsRound
      norm_num [min_def]
    · rw [updateProgress_percentage g 65 100 none now htype hval ht0]
      unfold pctFormula jsRound
      norm_num [min_def]

/-- Witness for C6 at `target.value = 65`, `v = 32.5`. -/
theorem stored_percentage_clamped_monotone_witness :
    ((sampleGoal .active (some 65) 0).updateProgress (65/2) none 0).progress.percentage = 50 :=
  ((stored_percentage_clamped_monotone (sampleGoal .active (some 65) 0) 65 0
    rfl rfl (by norm_num)).2.2 rfl).1

/-- C9: `updateProgress(v, note)` appends a milestone record
`{value: v, achievedAt, note}` iff a note is supplied or `v` is an exact
multiple of 10, and otherwise leaves the milestone list unchanged.  The
hypothesis restricts `note` to what `goalSchemas.updateProgress` lets
through (`Joi.string().max(200)` rejects the empty string, so a supplied
note is non-empty). -/
theorem milestone_appended_iff (g : Goal) (v : ℚ) (note : Option String) (now : Time)
    (hnote : note = none ∨ ∃ s, note = some s ∧ s ≠ "") :
    ((g.updateProgress v note now).progress.milestones
        = g.progress.milestones ++ [⟨v, now, note⟩]
      ↔ (note ≠ none ∨ ∃ k : ℤ, v = 10 * k))
    ∧ ((note = none ∧ ¬ ∃ k : ℤ, v = 10 * k) →
        (g.updateProgress v note now).progress.milestones = g.progress.milestones) := by
  have hm := updateProgress_milestones g v note now
  have htr : noteTruthy note = true ↔ note ≠ none := by
    rcases hnote with rfl | ⟨s, rfl, hs⟩
    · simp [noteTruthy]
    · simp [noteTruthy, hs]
  constructor
  · constructor
    · intro h
      by_cases hc : (noteTruthy note || jsMod10IsZero v) = true
      · rw [Bool.or_eq_true] at hc
        rcases hc with h1 | h1
        · exact Or.inl (htr.mp h1)
        · exact Or.inr ((jsMod10IsZero_iff v).mp h1)
      · rw [if_neg hc] at hm
        rw [hm] at h
        simpa using congrArg List.length h
    · intro h
      have hc : (noteTruthy note || jsMod10IsZero v) = true := by
        rw [Bool.or_eq_true]
        rcases h with h | h
        · exact Or.inl (htr.mpr h)
        · exact Or.inr ((jsMod10IsZero_iff v).mpr h)
      rw [hm, if_pos hc]
  · rintro ⟨h1, h2⟩
    have hc : ¬ ((noteTruthy note || jsMod10IsZero v) = true) := by
      rw [Bool.or_eq_true]
      rintro (hh | hh)
      · exact (htr.mp hh) h1
      · exact h2 ((jsMod10IsZero_iff v).mp hh)
    rw [hm, if_neg hc]

/-- Witness for C9: `v = 30` (a multiple of 10, no note) appends the
milestone `{value := 30, achievedAt := 0, note := none}`. -/
theorem milestone_appended_iff_witness :
    ((sampleGoal .active (some 65) 0).updateProgress 30 none 0).progress.milestones
      = (sampleGoal .active (some 65) 0).progress.milestones ++ [⟨30, 0, none⟩] :=
  ((milestone_appended_iff (sampleGoal .active (some 65) 0) 30 none 0 (Or.inl rfl)).1).mpr
    (Or.inr ⟨3, by norm_num⟩)

/-- `mapGet` after the keyed in-place update performed by the
`presence:update` handler. -/
theorem mapGet_presenceMap (m : Registry) (uid : UserId) (now : Time) (o : Option String) :
    mapGet (m.map (fun p =>
        if p.1 = uid then
          (p.1, { p.2 with lastActivity := some now, status := some (jsStatusOrActive o) })
        else p)) uid
      = (mapGet m uid).map
          (fun e => { e with lastActivity := some now, status := some (jsStatusOrActive o) }) := by
  induction m with
  | nil => rfl
  | cons a as ih =>
      by_cases ha : a.1 = uid
      · simp [mapGet, ha]
      · simp [mapGet, ha, ih]

/-- C1 counterexample: in the reachable state where user `"u"` has N = 2
live connections (`sockA` then `sockB` connected, neither disconnected),
`sendToUser` — the code's `publish` — delivers to exactly 1 connection,
not to N = 2 (no exclude id is even accepted by `sendToUser`), refuting
the claimed N / N−1 fan-out. -/
theorem publish_not_fanout_counterexample :
    (liveConnsOf twoConnState "u").length = 2
    ∧ sendToUserCount twoConnState "u" = 1
    ∧ (1 : Nat) ≠ 2 :=
  ⟨by decide, by decide, by decide⟩

/-- C1 amended: `sendToUser(userId, E, P)` takes no exclude parameter and
delivers to at most one connection: exactly one — the single registry
entry's socket, which after a `connect` is the most recently registered
socket — when the user has a registry entry, and zero otherwise,
regardless of how many live connections the user has. -/
theorem sendToUser_delivers_single (st : SrvState) (s : Socket) (now : Time) (uid : UserId) :
    sendToUserCount st uid ≤ 1
    ∧ (sendToUserCount st uid = 1 ↔ (getUserConnection st uid).isSome = true)
    ∧ sendToUserCount (applyOp st (.connect s now)) s.userId = 1
    ∧ sendRecipient (applyOp st (.connect s now)) s.userId = some s.sid := by
  refine ⟨?_, ?_, ?_, ?_⟩
  · unfold sendToUserCount
    cases mapGet st.registry uid <;> simp
  · unfold sendToUserCount getUserConnection
    cases mapGet st.registry uid <;> simp
  · show sendToUserCount (handleConnect st s now) s.userId = 1
    unfold sendToUserCount handleConnect
    rw [mapGet_mapSet_self]
  · show sendRecipient (handleConnect st s now) s.userId = some s.sid
    unfold sendRecipient handleConnect
    rw [mapGet_mapSet_self]
    rfl

/-- C2: every reachable registry has at most one entry per userId; when a
user who already has a stored entry registers again, the new entry
overwrites it — the only entry under that userId is the new one, so
`sendToUser`, `getUserConnection` and the idle sweep (which all read only
the registry) can see only the new connection — while every previously
open socket, the overwritten one included, remains open. -/
theorem registry_overwrites_on_second_connect (ops : List Op) (s : Socket) (now : Time)
    (e : ConnEntry) (_hmem : getUserConnection (run ops) s.userId = some e) :
    keysUnique (run ops).registry
    ∧ keysUnique (applyOp (run ops) (.connect s now)).registry
    ∧ getUserConnection (applyOp (run ops) (.connect s now)) s.userId
        = some ⟨s.sid, now, none, none⟩
    ∧ (∀ p ∈ (applyOp (run ops) (.connect s now)).registry,
        p.1 = s.userId → p.2 = ⟨s.sid, now, none, none⟩)
    ∧ (e ≠ ⟨s.sid, now, none, none⟩ →
        ∀ p ∈ (applyOp (run ops) (.connect s now)).registry, p ≠ (s.userId, e))
    ∧ (∀ t ∈ (run ops).liveSockets, t ∈ (applyOp (run ops) (.connect s now)).liveSockets) := by
  refine ⟨run_keysUnique ops, keysUnique_applyOp _ _ (run_keysUnique ops), ?_, ?_, ?_, ?_⟩
  · show getUserConnection (handleConnect (run ops) s now) s.userId = _
    unfold getUserConnection handleConnect
    exact mapGet_mapSet_self _ _ _
  · intro p hp hk
    have h := mem_mapSet_key (run ops).registry s.userId ⟨s.sid, now, none, none⟩ p hp hk
    rw [h]
  · intro hne p hp hpe
    have h := mem_mapSet_key (run ops).registry s.userId ⟨s.sid, now, none, none⟩ p hp
      (by rw [hpe])
    rw [hpe] at h
    exact hne (congrArg Prod.snd h)
  · intro t ht
    show t ∈ (run ops).liveSockets ++ [s]
    exact List.mem_append.mpr (Or.inl ht)

/-- Witness for C2: `sockB` registers while `sockA`'s entry is stored; the
entry under `"u"` becomes `sockB`'s. -/
theorem registry_overwrites_on_second_connect_witness :
    getUserConnection (applyOp (run [.connect sockA 0]) (.connect sockB 1)) sockB.userId
      = some ⟨sockB.sid, 1, none, none⟩ :=
  (registry_overwrites_on_second_connect [.connect sockA 0] sockB 1 ⟨"s1", 0, none, none⟩
    (by decide)).2.2.1

/-- C7 counterexample: a `health-data:update` frame (a recognized inbound
activity) arriving at t = 5000 on `sockA`'s connection leaves the stored
`lastActivity` at `none` (never recorded), not `some 5000`, refuting
"lastActivityAt is updated on any inbound activity". -/
theorem inbound_activity_not_recorded_counterexample :
    (getUserConnection (applyOp oneConnState (.inbound sockA .healthDataUpdate 5000))
        "u").map (·.lastActivity) = some none
    ∧ some (none : Option Time) ≠ some (some (5000 : Time)) :=
  ⟨by decide, by decide⟩

/-- C7 amended: only `presence:update` frames record activity — they set
the stored entry's `lastActivity` to now (and `status`); every other
recognized inbound frame leaves the whole connection state unchanged. -/
theorem only_presence_update_touches_last_activity (st : SrvState) (s : Socket)
    (k : InboundKind) (now : Time) (o : Option String) (e : ConnEntry)
    (he : getUserConnection st s.userId = some e) :
    getUserConnection (applyOp st (.inbound s (.presenceUpdate o) now)) s.userId
      = some { e with lastActivity := some now, status := some (jsStatusOrActive o) }
    ∧ (k.isPresence = false → applyOp st (.inbound s k now) = st) := by
  constructor
  · show getUserConnection (handleInbound st s (.presenceUpdate o) now) s.userId = _
    unfold getUserConnection handleInbound
    rw [mapGet_presenceMap]
    rw [getUserConnection] at he
    rw [he]
    rfl
  · intro hk
    cases k with
    | presenceUpdate o2 => exact absurd hk (by simp [InboundKind.isPresence])
    | healthDataUpdate => rfl
    | goalProgress => rfl
    | workoutStart => rfl
    | workoutUpdate => rfl
    | workoutComplete => rfl
    | notificationRead => rfl
    | typingStart => rfl
    | typingStop => rfl
    | syncRequest => rfl
    | syncResponse => rfl
    | customEvent => rfl

/-- Witness for C7's amended claim: a `presence:update` at t = 7000
records the activity; a `health-data:update` changes nothing. -/
theorem only_presence_update_touches_last_activity_witness :
    getUserConnection (applyOp oneConnState (.inbound sockA (.presenceUpdate none) 7000))
        sockA.userId
      = some { socketId := "s1", connectedAt := 0, lastActivity := some 7000,
               status := some (jsStatusOrActive none) }
    ∧ (InboundKind.healthDataUpdate.isPresence = false →
        applyOp oneConnState (.inbound sockA .healthDataUpdate 7000) = oneConnState) :=
  only_presence_update_touches_last_activity oneConnState sockA .healthDataUpdate 7000 none
    ⟨"s1", 0, none, none⟩ (by decide)

/-- C8: one cleanup sweep keeps a registry entry iff its effective last
activity (`lastActivity || connectedAt`) is within the 30-minute
threshold of `now` — an entry 31 minutes stale is deleted, one 1 second
old survives (shown concretely at `now = 1960000`) — and the sweep is
scheduled with a fixed 5-minute period. -/
theorem sweep_reaps_exactly_stale (st : SrvState) (now : Time) (p : UserId × ConnEntry) :
    (p ∈ (applyOp st (.sweep now)).registry
      ↔ p ∈ st.registry ∧ (now : Int) - (effectiveLast p.2 : Int) ≤ inactiveThresholdMs)
    ∧ (applyOp { registry := [("u1", ⟨"sA", 0, some 100000, none⟩),
                              ("u2", ⟨"sB", 0, some 1959000, none⟩)],
                 liveSockets := [] } (.sweep 1960000)).registry
        = [("u2", ⟨"sB", 0, some 1959000, none⟩)]
    ∧ inactiveThresholdMs = 30 * 60 * 1000
    ∧ sweepPeriodMs = 5 * 60 * 1000 := by
  refine ⟨?_, by decide, rfl, rfl⟩
  show p ∈ st.registry.filter _ ↔ _
  rw [List.mem_filter]
  simp [not_lt]

/-- C10: the disconnect handler deletes the registry entry stored under
the disconnecting socket's userId with no check that the entry belongs to
that socket — afterwards `sendToUser` for that user finds nothing and
returns false, while every other user's entry is untouched; concretely,
after `sockB` overwrote `sockA`'s entry, `sockA`'s disconnect removes
`sockB`'s live entry even though `sockB` is still open. -/
theorem disconnect_deletes_whole_user_entry (st : SrvState) (s : Socket) (uid' : UserId)
    (h : uid' ≠ s.userId) :
    getUserConnection (applyOp st (.disconnect s)) s.userId = none
    ∧ sendToUserOk (applyOp st (.disconnect s)) s.userId = false
    ∧ getUserConnection (applyOp st (.disconnect s)) uid' = getUserConnection st uid'
    ∧ getUserConnection (applyOp twoConnState (.disconnect sockA)) "u" = none
    ∧ sockB ∈ (applyOp twoConnState (.disconnect sockA)).liveSockets := by
  refine ⟨?_, ?_, ?_, by decide, by decide⟩
  · show getUserConnection (handleDisconnect st s) s.userId = none
    unfold getUserConnection handleDisconnect
    exact mapGet_mapDelete_self _ _
  · show sendToUserOk (handleDisconnect st s) s.userId = false
    unfold sendToUserOk handleDisconnect
    rw [mapGet_mapDelete_self]
    rfl
  · show getUserConnection (handleDisconnect st s) uid' = _
    unfold getUserConnection handleDisconnect
    exact mapGet_mapDelete_ne _ _ _ h

/-- Witness for C10 at the two-connection scenario, with unrelated user
`"w"`. -/
theorem disconnect_deletes_whole_user_entry_witness :
    getUserConnection (applyOp twoConnState (.disconnect sockA)) sockA.userId = none
    ∧ sendToUserOk (applyOp twoConnState (.disconnect sockA)) sockA.userId = false
    ∧ getUserConnection (applyOp twoConnState (.disconnect sockA)) "w"
        = getUserConnection twoConnState "w"
    ∧ getUserConnection (applyOp twoConnState (.disconnect sockA)) "u" = none
    ∧ sockB ∈ (applyOp twoConnState (.disconnect sockA)).liveSockets :=
  disconnect_deletes_whole_user_entry twoConnState sockA "w" (by decide)
